/-
Verification of the OPML RSS feed loader and the word-frequency utilities
(`load_rss_feeds.py`, `word_frequency.py`, `word_frequency-root.py`).

The Python code is shallowly embedded: pure logic becomes Lean functions,
the external collaborators (the feed-retrieval library, the filesystem and
the clock) become explicit oracle parameters, and Python exceptions become
`Except` values.  Strings are Lean `String`s (the embedding covers ASCII
text; Python `str.lower`, `str.split` and the regex word scan are modelled
at the code-point level).
-/
import Mathlib

namespace RssLoader

/-! ### Data model of the fetch phase (`load_rss_feeds.py`, lines 62-110)

`feedparser.parse` is the external feed-retrieval collaborator.  Its result
is modelled by `ParsedFeed` (spec section 6: `{bozo, feed: {title}, entries}`);
a raised exception is modelled by `Except.error` carrying the exception's
message (`str(e)`). -/

/-- One entry as returned by the feed-retrieval collaborator; every field is
optional, matching `entry.get(key, default)` in the source. -/
structure Entry where
  title : Option String
  link : Option String
  published : Option String
  summary : Option String
deriving Repr, DecidableEq

/-- The collaborator's result for one URL: `bozo` flag, optional feed title
(`feed.feed.get('title', ...)`), and the entry list. -/
structure ParsedFeed where
  bozo : Bool
  title : Option String
  entries : List Entry
deriving Repr, DecidableEq

/-- An article record as built at lines 85-90 of `load_rss_feeds.py`. -/
structure Article where
  title : String
  link : String
  published : String
  summary : String
deriving Repr, DecidableEq

/-- Python `s[:n]` on a string: keep the first `n` code points. -/
def pyTake (n : Nat) (s : String) : String :=
  ⟨s.data.take n⟩

/-- Lines 85-90: build one article from a collaborator entry, with the
defaults of `entry.get` and the 200-character summary truncation. -/
def mkArticle (e : Entry) : Article :=
  { title := e.title.getD "No title"
    link := e.link.getD ""
    published := e.published.getD ""
    summary := pyTake 200 (e.summary.getD "") }

/-- One element of `self.feed_data`: the success dictionary of lines 93-99
or the failure dictionary of lines 106-110. -/
inductive FeedRecord where
  | success (feed_url feed_title : String) (article_count : Nat)
      (articles : List Article) (fetched_at : String)
  | failure (feed_url : String) (error : String) (fetched_at : String)
deriving Repr, DecidableEq

/-- The `feed_url` key, present in both record shapes. -/
def FeedRecord.url : FeedRecord → String
  | .success u _ _ _ _ => u
  | .failure u _ _ => u

/-- Does a failure record carry a non-empty `error` message?  (True
vacuously on success records.) -/
def FeedRecord.errorNonEmpty : FeedRecord → Bool
  | .failure _ e _ => !(e == "")
  | .success _ _ _ _ _ => true

/-- The body of the `try`/`except` at lines 74-110 for the `i`-th URL:
`fetch` is the collaborator (index `i` identifies the call, so repeated
URLs may behave differently), `clock` is `datetime.now().isoformat()`. -/
def fetchOne (fetch : Nat → Except String ParsedFeed) (clock : Nat → String)
    (i : Nat) (url : String) : FeedRecord :=
  match fetch i with
  | .error e => .failure url e (clock i)
  | .ok f =>
      let articles := (f.entries.take 10).map mkArticle
      .success url (f.title.getD "Unknown Feed") articles.length articles (clock i)

/-- The enumerated loop of `fetch_feeds` starting at call index `i`. -/
def fetchFrom (fetch : Nat → Except String ParsedFeed) (clock : Nat → String) :
    Nat → List String → List FeedRecord
  | _, [] => []
  | i, url :: rest => fetchOne fetch clock i url :: fetchFrom fetch clock (i + 1) rest

/-- `fetch_feeds` (lines 62-110): process every URL in order, isolating
failures per URL.  The function is total: no exception escapes the loop. -/
def fetch_feeds (fetch : Nat → Except String ParsedFeed) (clock : Nat → String)
    (urls : List String) : List FeedRecord :=
  fetchFrom fetch clock 0 urls

/-! ### OPML parsing (`parse_opml`, lines 31-60)

The markup collaborator (`xml.etree.ElementTree`) yields an element tree;
`root.findall(".//outline[@type='rss']")` returns, in document order, every
strict descendant of the root whose tag is `outline` and whose `type`
attribute equals `rss`. -/

/-- An XML element: tag, attributes, children. -/
inductive Xml where
  | elem (tag : String) (attrs : List (String × String)) (children : List Xml)

/-- `element.get(key)`: look up an attribute. -/
def Xml.getAttr : Xml → String → Option String
  | .elem _ attrs _, k => (attrs.find? (fun p => p.1 == k)).map Prod.snd

/-- The predicate of the path `outline[@type='rss']`. -/
def isRssOutline (x : Xml) : Bool :=
  match x with
  | .elem tag _ _ => tag == "outline" && x.getAttr "type" == some "rss"

/-- Document-order (preorder, depth-first) list of a forest's elements. -/
def preorderF : List Xml → List Xml
  | [] => []
  | .elem t a cs :: rest => .elem t a cs :: (preorderF cs ++ preorderF rest)

/-- `findall(".//outline[@type='rss']")` over a forest: the rss-typed
outlines of `preorderF`, selected during the same depth-first walk. -/
def findallRss : List Xml → List Xml
  | [] => []
  | .elem t a cs :: rest =>
      (if isRssOutline (.elem t a cs) then [Xml.elem t a cs] else [])
        ++ (findallRss cs ++ findallRss rest)

/-- The loop body at lines 43-46: `xml_url = outline.get('xmlUrl')` followed
by `if xml_url:` — Python truthiness, so a missing attribute AND an empty
attribute value are both skipped. -/
def truthyUrl (x : Xml) : Option String :=
  match x.getAttr "xmlUrl" with
  | some u => if u == "" then none else some u
  | none => none

/-- The URL-extraction core of `parse_opml` (lines 43-46) applied to a
parsed document: the root's strict descendants are scanned. -/
def opmlUrls (doc : Xml) : List String :=
  match doc with
  | .elem _ _ cs => (findallRss cs).filterMap truthyUrl

/-- Spec-side reading of the extraction (spec section 8, first property):
collect the source-URL attribute of every rss-typed entry *declaring* the
attribute, in document order.  Written from the spec's words, to be
compared with `opmlUrls`. -/
def rssDeclaredUrls (doc : Xml) : List String :=
  match doc with
  | .elem _ _ cs =>
      (preorderF cs).filterMap
        (fun x => if isRssOutline x then x.getAttr "xmlUrl" else none)

/-- Spec-side traversal amended by truthiness: rss-typed entries declaring
a *non-empty* source-URL attribute, in document order. -/
def rssNonemptyUrls (doc : Xml) : List String :=
  match doc with
  | .elem _ _ cs =>
      (preorderF cs).filterMap
        (fun x => if isRssOutline x then
            (x.getAttr "xmlUrl").bind (fun u => if u == "" then none else some u)
          else none)

/-- Does this entry count for the amended property: rss-typed and declaring
a non-empty source-URL attribute? -/
def rssNonemptyEntry (x : Xml) : Bool :=
  isRssOutline x &&
    (match x.getAttr "xmlUrl" with
     | some u => !(u == "")
     | none => false)

/-- Number of rss-typed entries declaring a non-empty source-URL
attribute, over the root's strict descendants. -/
def rssNonemptyCount (doc : Xml) : Nat :=
  match doc with
  | .elem _ _ cs => ((preorderF cs).filter rssNonemptyEntry).length

/-- An OPML document whose only subscription entry is rss-typed and
declares the source-URL attribute with an empty value. -/
def emptyUrlOpml : Xml :=
  .elem "opml" []
    [.elem "body" [] [.elem "outline" [("type", "rss"), ("xmlUrl", "")] []]]

/-! ### Loader state (`OPMLRSSLoader`, lines 17-110)

`__init__` starts with empty `feeds_urls` and `feed_data`; `parse_opml`
appends the extracted URLs, `fetch_feeds` appends one record per URL of
`feeds_urls`.  Neither method clears previous contents. -/

structure Loader where
  feeds_urls : List String
  feed_data : List FeedRecord
deriving Repr, DecidableEq

/-- `OPMLRSSLoader.__init__` (lines 27-29). -/
def initLoader : Loader := ⟨[], []⟩

/-- The successful path of `parse_opml` (lines 38-50): every extracted URL
is appended to `self.feeds_urls`. -/
def parse_opmlS (doc : Xml) (st : Loader) : Loader :=
  { st with feeds_urls := st.feeds_urls ++ opmlUrls doc }

/-- `fetch_feeds` as a method: appends one record per URL of
`self.feeds_urls` to `self.feed_data` (lines 101 and 106). -/
def fetch_feedsS (fetch : Nat → Except String ParsedFeed) (clock : Nat → String)
    (st : Loader) : Loader :=
  { st with feed_data := st.feed_data ++ fetch_feeds fetch clock st.feeds_urls }

/-! ### JSON serialization (`save_as_json`, lines 159-184)

`json.dump` / `json.load` are modelled at the JSON-value level: a Python
dict becomes an object with its keys in insertion order, exactly as the
dict literals of the source build them. -/

inductive Json where
  | str (s : String)
  | num (n : Nat)
  | arr (xs : List Json)
  | obj (fields : List (String × Json))

/-- The keys of a JSON object (empty for non-objects). -/
def Json.keys : Json → List String
  | .obj fields => fields.map Prod.fst
  | _ => []

/-- The article dictionary of lines 85-90 as written by `json.dump`. -/
def articleToJson (a : Article) : Json :=
  .obj [("title", .str a.title), ("link", .str a.link),
        ("published", .str a.published), ("summary", .str a.summary)]

/-- A `feed_data` element as written by `json.dump`: the success dict of
lines 93-99 or the failure dict of lines 106-110, keys in insertion order. -/
def recordToJson : FeedRecord → Json
  | .success u t n arts ts =>
      .obj [("feed_url", .str u), ("feed_title", .str t),
            ("article_count", .num n),
            ("articles", .arr (arts.map articleToJson)),
            ("fetched_at", .str ts)]
  | .failure u e ts =>
      .obj [("feed_url", .str u), ("error", .str e), ("fetched_at", .str ts)]

/-- The data-model bounds of spec section 3 for one record: a success
carries at most 10 articles, each with a summary of at most 200
characters; a failure's serialized dictionary has no `articles` key. -/
def recordBounds (r : FeedRecord) : Bool :=
  match r with
  | .success _ _ _ arts _ =>
      decide (arts.length ≤ 10)
        && arts.all (fun a => decide (a.summary.length ≤ 200))
  | .failure u e ts =>
      !((recordToJson (.failure u e ts)).keys.contains "articles")

/-- The report assembled at write time (spec section 3 `Report`; the
`output_data` dict of lines 170-174 fixes `total_feeds`). -/
structure Report where
  generated_at : String
  total_feeds : Nat
  feeds : List FeedRecord
deriving Repr, DecidableEq

/-- `output_data` of lines 170-174: what `save_as_json` hands to
`json.dump`. -/
def reportToJson (r : Report) : Json :=
  .obj [("generated_at", .str r.generated_at),
        ("total_feeds", .num r.total_feeds),
        ("feeds", .arr (r.feeds.map recordToJson))]

/-- Assemble the report for a loader state; `total_feeds` is
`len(self.feed_data)` (line 172). -/
def mkReport (now : String) (st : Loader) : Report :=
  ⟨now, st.feed_data.length, st.feed_data⟩

/-! Reading the JSON back: the inverse interpretation of the dictionaries
above, distinguishing the failure shape by the presence of the `error` key
(the same discrimination `save_as_txt` uses at line 136). -/

/-- Look up a key of a JSON object. -/
def Json.lookup (j : Json) (k : String) : Option Json :=
  match j with
  | .obj fields => (fields.find? (fun p => p.1 == k)).map Prod.snd
  | _ => none

def jsonToArticle (j : Json) : Option Article :=
  match j.lookup "title", j.lookup "link", j.lookup "published",
      j.lookup "summary" with
  | some (.str t), some (.str l), some (.str p), some (.str s) =>
      some ⟨t, l, p, s⟩
  | _, _, _, _ => none

def jsonToRecord (j : Json) : Option FeedRecord :=
  match j.lookup "feed_url", j.lookup "fetched_at" with
  | some (.str u), some (.str ts) =>
      match j.lookup "error" with
      | some (.str e) => some (.failure u e ts)
      | _ =>
          match j.lookup "feed_title", j.lookup "article_count",
              j.lookup "articles" with
          | some (.str t), some (.num n), some (.arr arts) =>
              (arts.mapM jsonToArticle).map (fun as => .success u t n as ts)
          | _, _, _ => none
  | _, _ => none

def jsonToReport (j : Json) : Option Report :=
  match j.lookup "generated_at", j.lookup "total_feeds", j.lookup "feeds" with
  | some (.str g), some (.num n), some (.arr fs) =>
      (fs.mapM jsonToRecord).map (fun recs => ⟨g, n, recs⟩)
  | _, _, _ => none

/-! ### The driver (`main`, lines 187-250)

The filesystem and the per-path write outcomes are an environment; the
run's observable behaviour (exit code, which phases ran, which files were
written) is a trace.  A write's success depends on the target path only
(spec section 7: `IOError` is a property of the output target). -/

/-- The parsed command line.  An option holds the flag's string value;
Python tests the strings for truthiness, so `some ""` counts as absent. -/
structure Args where
  opml_file : String
  txt : Option String
  json : Option String
  both : Option String
deriving Repr, DecidableEq

/-- Python truthiness of an optional string. -/
def truthy : Option String → Bool
  | none => false
  | some s => !(s == "")

/-- The run environment: `Path(...).exists()`, the outcome of
`ET.parse` + extraction, the fetch collaborator and clock, and per-path
write outcomes for the two formats. -/
structure Env where
  fileExists : Bool
  parseOutcome : Except String (List String)
  fetch : Nat → Except String ParsedFeed
  clock : Nat → String
  txtWriteOk : String → Bool
  jsonWriteOk : String → Bool

/-- Observable trace of one run of `main`. -/
structure RunTrace where
  exitCode : Nat
  parseAttempted : Bool
  parseSucceeded : Bool
  fetchAttempted : Bool
  txtWrites : List String
  jsonWrites : List String
deriving Repr, DecidableEq

/-- `main` (lines 187-250): argument validation, existence check, parse,
fetch, then the requested writes with `success &= ...` (the non-lazy `&=`,
so every requested write is attempted). -/
def mainRun (a : Args) (env : Env) : RunTrace :=
  if !(truthy a.txt) && !(truthy a.json) && !(truthy a.both) then
    ⟨1, false, false, false, [], []⟩
  else if !env.fileExists then
    ⟨1, false, false, false, [], []⟩
  else
    match env.parseOutcome with
    | .error _ => ⟨1, true, false, false, [], []⟩
    | .ok urls =>
        let _feed_data := fetch_feeds env.fetch env.clock urls
        if truthy a.both then
          let p := a.both.getD ""
          let ok := env.txtWriteOk (p ++ ".txt") && env.jsonWriteOk (p ++ ".json")
          ⟨if ok then 0 else 1, true, true, true, [p ++ ".txt"], [p ++ ".json"]⟩
        else
          let txtOk := if truthy a.txt then env.txtWriteOk (a.txt.getD "") else true
          let jsonOk := if truthy a.json then env.jsonWriteOk (a.json.getD "") else true
          ⟨if txtOk && jsonOk then 0 else 1, true, true, true,
            if truthy a.txt then [a.txt.getD ""] else [],
            if truthy a.json then [a.json.getD ""] else []⟩

/-- Are both output formats requested in one run (either `--both`, or
`--txt` together with `--json`)? -/
def bothFormatsRequested (a : Args) : Bool :=
  truthy a.both || (truthy a.txt && truthy a.json)

/-- The path the text write targets once the write phase is reached. -/
def txtTarget (a : Args) : String :=
  if truthy a.both then a.both.getD "" ++ ".txt" else a.txt.getD ""

/-- The path the JSON write targets once the write phase is reached. -/
def jsonTarget (a : Args) : String :=
  if truthy a.both then a.both.getD "" ++ ".json" else a.json.getD ""

/-- "Every requested output write succeeded", read off the flags and the
environment. -/
def requestedWritesOk (a : Args) (env : Env) : Bool :=
  if truthy a.both then
    let p := a.both.getD ""
    env.txtWriteOk (p ++ ".txt") && env.jsonWriteOk (p ++ ".json")
  else
    (if truthy a.txt then env.txtWriteOk (a.txt.getD "") else true)
      && (if truthy a.json then env.jsonWriteOk (a.json.getD "") else true)

/-- The shipped script as actually invoked.  Line 254 of
`load_rss_feeds.py` reads `main()load` — a syntax error — so the
interpreter rejects the module during compilation, before any statement
(including the `main()` call) executes: every invocation exits with
status 1 and parses, fetches and writes nothing.  `mainRun` above models
the intended body of `main`; `scriptRun` models what the shipped file
does. -/
def scriptRun (_a : Args) (_env : Env) : RunTrace :=
  ⟨1, false, false, false, [], []⟩

end RssLoader

namespace WordFreq

/-! ### The two word-frequency counters

`word_frequency` (`word_frequency.py`): `text.split()` then lowercase each
token and count.  `analyze_word_frequency` (`word_frequency-root.py`):
lowercase the whole text, then `re.findall(r'\b[a-z]+\b')` and count (its
final frequency-descending sort does not change the mapping).  Text is a
`List Char`; the embedding covers ASCII text, where Python and Lean agree
on `lower`, on the whitespace class, and on the regex classes `[a-z]` and
`\w = [a-zA-Z0-9_]`. -/

/-- The regex class `[a-z]` (on ASCII text). -/
def asciiLower (c : Char) : Bool :=
  97 ≤ c.toNat && c.toNat ≤ 122

/-- The regex class `\w` (on ASCII text): letters, digits, underscore. -/
def wordChar (c : Char) : Bool :=
  c.isAlphanum || c == '_'

/-- Python `str.split()` with no argument: maximal runs of non-whitespace
characters, with `acc` the current (reversed) run. -/
def splitWsAux : List Char → List Char → List (List Char)
  | [], acc => if acc.isEmpty then [] else [acc.reverse]
  | c :: cs, acc =>
      if c.isWhitespace then
        if acc.isEmpty then splitWsAux cs []
        else acc.reverse :: splitWsAux cs []
      else splitWsAux cs (c :: acc)

def splitWs (text : List Char) : List (List Char) :=
  splitWsAux text []

/-- `re.findall(r'\b[a-z]+\b', content)` on lowercased ASCII text: the
maximal `[a-z]` runs both of whose neighbours (when present) are not `\w`
characters.  `runOk` records whether the position before the current run
was a word boundary; `acc` is the current (reversed) run. -/
def findWordsAux : List Char → Bool → List Char → List (List Char)
  | [], runOk, acc =>
      if !acc.isEmpty && runOk then [acc.reverse] else []
  | c :: cs, runOk, acc =>
      if asciiLower c then findWordsAux cs runOk (c :: acc)
      else
        let rest := findWordsAux cs (!wordChar c) []
        if !acc.isEmpty && runOk && !wordChar c then acc.reverse :: rest
        else rest

def findWords (text : List Char) : List (List Char) :=
  findWordsAux text true []

/-- The mapping computed by `word_frequency` (`word_frequency.py`,
lines 1-16), as the function from a word to its count (0 for words not in
the dict). -/
def word_frequency (text : List Char) (w : List Char) : Nat :=
  ((splitWs text).map (fun t => t.map Char.toLower)).count w

/-- The mapping computed by `analyze_word_frequency`
(`word_frequency-root.py`, lines 5-35), as the function from a word to its
count. -/
def analyze_word_frequency (text : List Char) (w : List Char) : Nat :=
  (findWords (text.map Char.toLower)).count w

end WordFreq

/-! ## Theorems -/

namespace RssLoader

theorem fetchOne_url (f : Nat → Except String ParsedFeed) (c : Nat → String)
    (i : Nat) (u : String) : (fetchOne f c i u).url = u := by
  cases hf : f i <;> simp [fetchOne, hf, FeedRecord.url]

theorem fetchFrom_length (f : Nat → Except String ParsedFeed) (c : Nat → String) :
    ∀ (i : Nat) (urls : List String), (fetchFrom f c i urls).length = urls.length
  | _, [] => rfl
  | i, u :: rest => by
      simp [fetchFrom, fetchFrom_length f c (i + 1) rest]

theorem fetchFrom_map_url (f : Nat → Except String ParsedFeed) (c : Nat → String) :
    ∀ (i : Nat) (urls : List String),
      (fetchFrom f c i urls).map FeedRecord.url = urls
  | _, [] => rfl
  | i, u :: rest => by
      simp [fetchFrom, fetchOne_url, fetchFrom_map_url f c (i + 1) rest]

theorem fetchFrom_append (f : Nat → Except String ParsedFeed) (c : Nat → String) :
    ∀ (i : Nat) (xs ys : List String),
      fetchFrom f c i (xs ++ ys)
        = fetchFrom f c i xs ++ fetchFrom f c (i + xs.length) ys
  | _, [], ys => by simp [fetchFrom]
  | i, x :: xs, ys => by
      have hidx : i + (x :: xs).length = (i + 1) + xs.length := by
        simp only [List.length_cons]
        omega
      rw [hidx]
      show fetchOne f c i x :: fetchFrom f c (i + 1) (xs ++ ys) = _
      rw [fetchFrom_append f c (i + 1) xs ys]
      rfl

/-- C1: `fetch_feeds` produces exactly one `FeedRecord` per input URL, in
input order: the result list has the input's length, and taking `feed_url`
of each result gives back the input list.  The embedded function is total,
so no exception escapes the batch loop. -/
theorem fetch_feeds_results_align (f : Nat → Except String ParsedFeed)
    (c : Nat → String) (urls : List String) :
    (fetch_feeds f c urls).length = urls.length ∧
      (fetch_feeds f c urls).map FeedRecord.url = urls :=
  ⟨fetchFrom_length f c 0 urls, fetchFrom_map_url f c 0 urls⟩

/-- C2, counterexample: when the collaborator raises an exception whose
message is empty (`str(e) == ""`), the code records a Failure whose
`error` value is the empty string, so "errorMessage is non-empty" fails. -/
theorem fetch_feeds_empty_error_message :
    fetch_feeds (fun _ => Except.error "") (fun _ => "ts") ["u"]
        = [FeedRecord.failure "u" "" "ts"]
      ∧ (fetch_feeds (fun _ => Except.error "") (fun _ => "ts") ["u"]).all
          FeedRecord.errorNonEmpty = false :=
  ⟨rfl, rfl⟩

/-- C2 (amended): when retrieval of the URL at position `|pre|` raises an
exception with message `e`, `fetch_feeds` records for it a Failure whose
`errorMessage` equals `e` (possibly empty), the URLs before it are
processed as usual, and the batch continues: the URLs after it are
processed exactly as the loop would on its own. -/
theorem fetch_feeds_failure_isolated (f : Nat → Except String ParsedFeed)
    (c : Nat → String) (pre post : List String) (u e : String)
    (he : f pre.length = Except.error e) :
    fetch_feeds f c (pre ++ u :: post)
      = fetchFrom f c 0 pre
          ++ FeedRecord.failure u e (c pre.length)
            :: fetchFrom f c (pre.length + 1) post := by
  unfold fetch_feeds
  rw [fetchFrom_append f c 0 pre (u :: post)]
  simp [fetchFrom, fetchOne, he]

theorem fetch_feeds_failure_isolated_witness :
    (fun _ => (Except.error "boom" : Except String ParsedFeed))
        (["a"] : List String).length = Except.error "boom"
      ∧ fetch_feeds (fun _ => Except.error "boom") (fun _ => "t")
            (["a"] ++ "b" :: ["c"])
          = fetchFrom (fun _ => Except.error "boom") (fun _ => "t") 0 ["a"]
              ++ FeedRecord.failure "b" "boom"
                    ((fun _ => "t") (["a"] : List String).length)
                :: fetchFrom (fun _ => Except.error "boom") (fun _ => "t")
                    ((["a"] : List String).length + 1) ["c"] :=
  ⟨rfl, fetch_feeds_failure_isolated (fun _ => Except.error "boom")
    (fun _ => "t") ["a"] ["c"] "b" "boom" rfl⟩

theorem pyTake_length_le (n : Nat) (s : String) : (pyTake n s).length ≤ n := by
  show (String.mk (s.data.take n)).length ≤ n
  simp [List.length_take]

theorem mem_fetchFrom (f : Nat → Except String ParsedFeed) (c : Nat → String) :
    ∀ (i : Nat) (urls : List String) (r : FeedRecord),
      r ∈ fetchFrom f c i urls → ∃ j u, r = fetchOne f c j u
  | _, [], r, h => absurd h (List.not_mem_nil r)
  | i, u :: rest, r, h => by
      rcases List.mem_cons.mp h with h1 | h2
      · exact ⟨i, u, h1⟩
      · exact mem_fetchFrom f c (i + 1) rest r h2

theorem fetchOne_bounds (f : Nat → Except String ParsedFeed) (c : Nat → String)
    (i : Nat) (u : String) : recordBounds (fetchOne f c i u) = true := by
  cases hf : f i with
  | error e => simp [fetchOne, hf, recordBounds, recordToJson, Json.keys]
  | ok pf =>
      simp only [fetchOne, hf, recordBounds, Bool.and_eq_true, decide_eq_true_eq,
        List.all_eq_true]
      refine ⟨by simp [List.length_take], ?_⟩
      intro a ha
      obtain ⟨en, _, rfl⟩ := List.mem_map.mp ha
      simpa using pyTake_length_le 200 (en.summary.getD "")

/-- C3: every record produced by `fetch_feeds` satisfies the data-model
bounds: a success carries at most 10 articles, each with a summary of at
most 200 characters, and a failure's serialized dictionary never has an
`articles` key. -/
theorem fetch_feeds_record_bounds (f : Nat → Except String ParsedFeed)
    (c : Nat → String) (urls : List String) (r : FeedRecord)
    (h : r ∈ fetch_feeds f c urls) : recordBounds r = true := by
  obtain ⟨j, u, rfl⟩ := mem_fetchFrom f c 0 urls r h
  exact fetchOne_bounds f c j u

theorem findallRss_eq_filter :
    ∀ xs : List Xml, findallRss xs = (preorderF xs).filter isRssOutline
  | [] => by simp [findallRss, preorderF]
  | .elem t a cs :: rest => by
      rw [show findallRss (.elem t a cs :: rest)
            = (if isRssOutline (.elem t a cs) then [Xml.elem t a cs] else [])
                ++ (findallRss cs ++ findallRss rest) from by
          simp [findallRss],
        show preorderF (.elem t a cs :: rest)
            = .elem t a cs :: (preorderF cs ++ preorderF rest) from by
          simp [preorderF],
        List.filter_cons, List.filter_append,
        ← findallRss_eq_filter cs, ← findallRss_eq_filter rest]
      cases h : isRssOutline (.elem t a cs) <;> simp [h]

theorem length_filterMap_eq_filter {α β : Type} (f : α → Option β)
    (p : α → Bool) (h : ∀ x, (f x).isSome = p x) :
    ∀ l : List α, (l.filterMap f).length = (l.filter p).length
  | [] => rfl
  | x :: l => by
      rw [List.filterMap_cons, List.filter_cons]
      cases hfx : f x with
      | none =>
          have hp : p x = false := by rw [← h x, hfx]; rfl
          simp [hp, length_filterMap_eq_filter f p h l]
      | some b =>
          have hp : p x = true := by rw [← h x, hfx]; rfl
          simp [hp, length_filterMap_eq_filter f p h l]

theorem truthyUrl_isSome (x : Xml) :
    (if isRssOutline x then truthyUrl x else none).isSome = rssNonemptyEntry x := by
  cases hr : isRssOutline x
  · simp [rssNonemptyEntry, hr]
  · cases hu : x.getAttr "xmlUrl" with
    | none => simp [truthyUrl, rssNonemptyEntry, hr, hu]
    | some u => cases he : (u == "") <;> simp [truthyUrl, rssNonemptyEntry, hr, hu, he]

/-- C4, counterexample: an rss-typed entry declaring `xmlUrl=""` declares
the source-URL attribute, but the loop's `if xml_url:` test (Python
truthiness) skips the empty string, so the extracted URLs are fewer than
the rss-typed entries declaring the attribute. -/
theorem opmlUrls_skips_empty_attr :
    opmlUrls emptyUrlOpml = []
      ∧ rssDeclaredUrls emptyUrlOpml = [""]
      ∧ (opmlUrls emptyUrlOpml).length ≠ (rssDeclaredUrls emptyUrlOpml).length := by
  have h1 : opmlUrls emptyUrlOpml = [] := by
    simp [opmlUrls, emptyUrlOpml, findallRss, isRssOutline, Xml.getAttr,
      truthyUrl, List.find?]
  have h2 : rssDeclaredUrls emptyUrlOpml = [""] := by
    simp [rssDeclaredUrls, emptyUrlOpml, preorderF, isRssOutline, Xml.getAttr,
      List.find?]
  refine ⟨h1, h2, ?_⟩
  rw [h1, h2]
  decide

/-- C4 (amended): `parse_opml` collects exactly the *non-empty* `xmlUrl`
attributes of rss-typed outline entries, in document order; entries with
other types, lacking the attribute, or declaring it with an empty value
are excluded, so the count of extracted URLs equals the count of rss-typed
entries declaring a non-empty source-URL attribute. -/
theorem opmlUrls_rss_nonempty (doc : Xml) :
    opmlUrls doc = rssNonemptyUrls doc
      ∧ (opmlUrls doc).length = rssNonemptyCount doc := by
  obtain ⟨t, a, cs⟩ := doc
  have hfun : (fun x => if isRssOutline x then truthyUrl x else none)
      = (fun x => if isRssOutline x then
          (x.getAttr "xmlUrl").bind (fun u => if u == "" then none else some u)
        else none) := by
    funext x
    cases hx : x.getAttr "xmlUrl" <;> simp [truthyUrl, hx]
  have hcode : opmlUrls (.elem t a cs)
      = (preorderF cs).filterMap
          (fun x => if isRssOutline x then truthyUrl x else none) := by
    show (findallRss cs).filterMap truthyUrl = _
    rw [findallRss_eq_filter cs, List.filterMap_filter]
  refine ⟨?_, ?_⟩
  · rw [hcode, hfun]
    rfl
  · rw [hcode]
    exact length_filterMap_eq_filter _ _ truthyUrl_isSome (preorderF cs)

theorem fetch_feeds_record_bounds_witness :
    FeedRecord.failure "u" "x" "t"
        ∈ fetch_feeds (fun _ => Except.error "x") (fun _ => "t") ["u"]
      ∧ recordBounds (FeedRecord.failure "u" "x" "t") = true :=
  ⟨by decide, fetch_feeds_record_bounds (fun _ => Except.error "x")
    (fun _ => "t") ["u"] (FeedRecord.failure "u" "x" "t") (by decide)⟩

/-- For the intended `main` body (`mainRun`): the exit status is 0 exactly
when a successful OPML parse occurred during the run AND every requested
output write succeeded; the exit status is always 0 or 1, so any parse or
write failure yields exit status 1; and the whole observable trace — the
exit status in particular — is unchanged by the fetch collaborator and the
clock, so per-feed fetch failures never by themselves change the exit
status. -/
theorem mainRun_exit_iff (a : Args) (env : Env) :
    ((mainRun a env).exitCode = 0
        ↔ ((mainRun a env).parseSucceeded = true
            ∧ requestedWritesOk a env = true))
      ∧ ((mainRun a env).exitCode = 0 ∨ (mainRun a env).exitCode = 1)
      ∧ ∀ f2 c2, mainRun a { env with fetch := f2, clock := c2 } = mainRun a env := by
  obtain ⟨fe, po, fo, co, tw, jw⟩ := env
  refine ⟨?_, ?_, ?_⟩
  · unfold mainRun requestedWritesOk
    cases po with
    | error e => split_ifs <;> simp
    | ok urls => split_ifs <;> simp_all
  · unfold mainRun
    cases po with
    | error e => split_ifs <;> simp
    | ok urls => split_ifs <;> simp_all
  · intro f2 c2
    cases po <;> rfl

/-- For the intended `main` body (`mainRun`): whenever both output formats
are requested (via `--both`, or `--txt` together with `--json`) and the
run reaches the write phase, both target files are written to regardless
of the other's outcome, and a failed write of either format forces exit
status 1. -/
theorem mainRun_write_independence (a : Args) (env : Env) (urls : List String)
    (hreq : bothFormatsRequested a = true) (hex : env.fileExists = true)
    (hp : env.parseOutcome = Except.ok urls) :
    (mainRun a env).txtWrites = [txtTarget a]
      ∧ (mainRun a env).jsonWrites = [jsonTarget a]
      ∧ (env.txtWriteOk (txtTarget a) = false → (mainRun a env).exitCode = 1)
      ∧ (env.jsonWriteOk (jsonTarget a) = false → (mainRun a env).exitCode = 1) := by
  unfold mainRun txtTarget jsonTarget
  rw [hp]
  cases hb : truthy a.both with
  | true =>
      simp only [bothFormatsRequested] at hreq
      simp [hex, hb]
      constructor
      · intro hfail
        simp [hfail]
      · intro hfail
        simp [hfail]
  | false =>
      simp only [bothFormatsRequested, hb, Bool.false_or, Bool.and_eq_true] at hreq
      obtain ⟨ht, hj⟩ := hreq
      simp [hex, hb, ht, hj]
      constructor
      · intro hfail
        simp [hfail]
      · intro hfail
        simp [hfail]

theorem mainRun_write_independence_witness :
    bothFormatsRequested ⟨"s.opml", some "o.txt", some "o.json", none⟩ = true
      ∧ (⟨true, Except.ok [], fun _ => Except.error "", fun _ => "t",
            fun _ => false, fun _ => true⟩ : Env).fileExists = true
      ∧ (⟨true, Except.ok [], fun _ => Except.error "", fun _ => "t",
            fun _ => false, fun _ => true⟩ : Env).parseOutcome = Except.ok []
      ∧ ((mainRun ⟨"s.opml", some "o.txt", some "o.json", none⟩
            ⟨true, Except.ok [], fun _ => Except.error "", fun _ => "t",
              fun _ => false, fun _ => true⟩).txtWrites
            = [txtTarget ⟨"s.opml", some "o.txt", some "o.json", none⟩]
          ∧ (mainRun ⟨"s.opml", some "o.txt", some "o.json", none⟩
                ⟨true, Except.ok [], fun _ => Except.error "", fun _ => "t",
                  fun _ => false, fun _ => true⟩).jsonWrites
              = [jsonTarget ⟨"s.opml", some "o.txt", some "o.json", none⟩]
          ∧ ((⟨true, Except.ok [], fun _ => Except.error "", fun _ => "t",
                fun _ => false, fun _ => true⟩ : Env).txtWriteOk
                (txtTarget ⟨"s.opml", some "o.txt", some "o.json", none⟩) = false
              → (mainRun ⟨"s.opml", some "o.txt", some "o.json", none⟩
                  ⟨true, Except.ok [], fun _ => Except.error "", fun _ => "t",
                    fun _ => false, fun _ => true⟩).exitCode = 1)
          ∧ ((⟨true, Except.ok [], fun _ => Except.error "", fun _ => "t",
                fun _ => false, fun _ => true⟩ : Env).jsonWriteOk
                (jsonTarget ⟨"s.opml", some "o.txt", some "o.json", none⟩) = false
              → (mainRun ⟨"s.opml", some "o.txt", some "o.json", none⟩
                  ⟨true, Except.ok [], fun _ => Except.error "", fun _ => "t",
                    fun _ => false, fun _ => true⟩).exitCode = 1)) :=
  ⟨by decide, rfl, rfl,
    mainRun_write_independence ⟨"s.opml", some "o.txt", some "o.json", none⟩
      ⟨true, Except.ok [], fun _ => Except.error "", fun _ => "t",
        fun _ => false, fun _ => true⟩ [] (by decide) rfl rfl⟩

/-- C5, code bug: the shipped script can never exit 0.  The module-level
syntax error at line 254 (`main()load`) makes every invocation exit with
status 1 before `main` runs (`scriptRun`), while on a full-success input —
file present, parse succeeding, the one requested write succeeding — the
intended `main` body (`mainRun`) exits 0 with a successful parse and all
requested writes succeeding, exactly as the claim requires.  The claim
states the intent; the shipped code contradicts it on every input. -/
theorem script_never_exits_zero :
    (∀ (a : Args) (env : Env), (scriptRun a env).exitCode = 1)
      ∧ (mainRun ⟨"s.opml", some "o.txt", none, none⟩
            ⟨true, Except.ok ["u"], fun _ => Except.error "", fun _ => "t",
              fun _ => true, fun _ => true⟩).exitCode = 0
      ∧ (mainRun ⟨"s.opml", some "o.txt", none, none⟩
            ⟨true, Except.ok ["u"], fun _ => Except.error "", fun _ => "t",
              fun _ => true, fun _ => true⟩).parseSucceeded = true
      ∧ requestedWritesOk ⟨"s.opml", some "o.txt", none, none⟩
            ⟨true, Except.ok ["u"], fun _ => Except.error "", fun _ => "t",
              fun _ => true, fun _ => true⟩ = true :=
  ⟨fun _ _ => rfl, by decide, by decide, by decide⟩

/-- C6, code bug: no invocation of the shipped script attempts any output
write — the module-level syntax error at line 254 aborts before the write
phase (`scriptRun`) — so "a write failure in one format does not prevent
the other format's write" is unexhibitable in the shipped program; the
intended `main` body (`mainRun`) does exhibit it: with both formats
requested and the text write failing, both target files are still written
to and the overall status flips to failure. -/
theorem script_never_writes :
    (∀ (a : Args) (env : Env),
        (scriptRun a env).txtWrites = [] ∧ (scriptRun a env).jsonWrites = [])
      ∧ (mainRun ⟨"s.opml", some "o.txt", some "o.json", none⟩
            ⟨true, Except.ok [], fun _ => Except.error "", fun _ => "t",
              fun _ => false, fun _ => true⟩).txtWrites
          = [txtTarget ⟨"s.opml", some "o.txt", some "o.json", none⟩]
      ∧ (mainRun ⟨"s.opml", some "o.txt", some "o.json", none⟩
            ⟨true, Except.ok [], fun _ => Except.error "", fun _ => "t",
              fun _ => false, fun _ => true⟩).jsonWrites
          = [jsonTarget ⟨"s.opml", some "o.txt", some "o.json", none⟩]
      ∧ (mainRun ⟨"s.opml", some "o.txt", some "o.json", none⟩
            ⟨true, Except.ok [], fun _ => Except.error "", fun _ => "t",
              fun _ => false, fun _ => true⟩).exitCode = 1 :=
  ⟨fun _ _ => ⟨rfl, rfl⟩, by decide, by decide, by decide⟩

theorem jsonToArticle_round (a : Article) :
    jsonToArticle (articleToJson a) = some a := by
  obtain ⟨t, l, p, s⟩ := a
  rfl

theorem mapM_article_round :
    ∀ l : List Article, (l.map articleToJson).mapM jsonToArticle = some l
  | [] => rfl
  | a :: l => by
      rw [List.map_cons, List.mapM_cons, jsonToArticle_round a,
        mapM_article_round l]
      rfl

theorem jsonToRecord_round (r : FeedRecord) :
    jsonToRecord (recordToJson r) = some r := by
  cases r with
  | failure u e ts => rfl
  | success u t n arts ts =>
      show ((arts.map articleToJson).mapM jsonToArticle).map
          (fun as => FeedRecord.success u t n as ts)
        = some (FeedRecord.success u t n arts ts)
      rw [mapM_article_round arts]
      rfl

theorem mapM_record_round :
    ∀ l : List FeedRecord, (l.map recordToJson).mapM jsonToRecord = some l
  | [] => rfl
  | r :: l => by
      rw [List.map_cons, List.mapM_cons, jsonToRecord_round r,
        mapM_record_round l]
      rfl

/-- C8: serializing a `Report` to JSON as `save_as_json` does and parsing
the JSON back yields a structurally equal `Report`: the same
`generated_at`, `total_feeds` and `feeds`, with the feed objects in the
same order. -/
theorem json_round_trip (r : Report) : jsonToReport (reportToJson r) = some r := by
  obtain ⟨g, n, feeds⟩ := r
  show ((feeds.map recordToJson).mapM jsonToRecord).map
      (fun recs => Report.mk g n recs) = some (Report.mk g n feeds)
  rw [mapM_record_round feeds]
  rfl

/-- C7: when the OPML file does not exist, the run exits with status 1
without attempting the parse, the fetch, or any output write — in
particular no output file is created. -/
theorem mainRun_missing_file (a : Args) (env : Env)
    (h : env.fileExists = false) :
    (mainRun a env).exitCode = 1
      ∧ (mainRun a env).parseAttempted = false
      ∧ (mainRun a env).fetchAttempted = false
      ∧ (mainRun a env).txtWrites = []
      ∧ (mainRun a env).jsonWrites = [] := by
  unfold mainRun
  split_ifs with h1 h2 <;> simp_all

theorem mainRun_missing_file_witness :
    (⟨false, Except.error "missing", fun _ => Except.error "", fun _ => "t",
          fun _ => true, fun _ => true⟩ : Env).fileExists = false
      ∧ ((mainRun ⟨"gone.opml", some "o.txt", none, none⟩
            ⟨false, Except.error "missing", fun _ => Except.error "",
              fun _ => "t", fun _ => true, fun _ => true⟩).exitCode = 1
          ∧ (mainRun ⟨"gone.opml", some "o.txt", none, none⟩
                ⟨false, Except.error "missing", fun _ => Except.error "",
                  fun _ => "t", fun _ => true, fun _ => true⟩).parseAttempted = false
          ∧ (mainRun ⟨"gone.opml", some "o.txt", none, none⟩
                ⟨false, Except.error "missing", fun _ => Except.error "",
                  fun _ => "t", fun _ => true, fun _ => true⟩).fetchAttempted = false
          ∧ (mainRun ⟨"gone.opml", some "o.txt", none, none⟩
                ⟨false, Except.error "missing", fun _ => Except.error "",
                  fun _ => "t", fun _ => true, fun _ => true⟩).txtWrites = []
          ∧ (mainRun ⟨"gone.opml", some "o.txt", none, none⟩
                ⟨false, Except.error "missing", fun _ => Except.error "",
                  fun _ => "t", fun _ => true, fun _ => true⟩).jsonWrites = []) :=
  ⟨rfl, mainRun_missing_file ⟨"gone.opml", some "o.txt", none, none⟩
    ⟨false, Except.error "missing", fun _ => Except.error "", fun _ => "t",
      fun _ => true, fun _ => true⟩ rfl⟩

theorem parse_iterate (doc : Xml) :
    ∀ (n : Nat) (st : Loader),
      ((parse_opmlS doc)^[n] st).feeds_urls
        = st.feeds_urls ++ (List.replicate n (opmlUrls doc)).flatten
  | 0, st => by simp
  | n + 1, st => by
      rw [Function.iterate_succ_apply, parse_iterate doc n (parse_opmlS doc st)]
      simp [parse_opmlS, List.replicate_succ, List.append_assoc]

theorem fetch_iterate (f : Nat → Except String ParsedFeed) (c : Nat → String) :
    ∀ (n : Nat) (st : Loader),
      ((fetch_feedsS f c)^[n] st).feed_data
        = st.feed_data ++ (List.replicate n (fetch_feeds f c st.feeds_urls)).flatten
  | 0, st => by simp
  | n + 1, st => by
      rw [Function.iterate_succ_apply, fetch_iterate f c n (fetch_feedsS f c st)]
      simp [fetch_feedsS, List.replicate_succ, List.append_assoc]

/-- C10: loader state accumulates across repeated calls without clearing:
`parse_opml` applied `n` times to a fresh loader leaves `n` concatenated
copies of the document's URL list in `feeds_urls`; `fetch_feeds` applied
`n` times appends `n` concatenated copies of the batch's records to
`feed_data`; and a subsequently assembled report counts every accumulated
entry. -/
theorem loader_state_accumulates (doc : Xml)
    (f : Nat → Except String ParsedFeed) (c : Nat → String) (n : Nat)
    (st : Loader) (now : String) :
    ((parse_opmlS doc)^[n] initLoader).feeds_urls
        = (List.replicate n (opmlUrls doc)).flatten
      ∧ ((fetch_feedsS f c)^[n] st).feed_data
          = st.feed_data ++ (List.replicate n (fetch_feeds f c st.feeds_urls)).flatten
      ∧ (mkReport now st).total_feeds = st.feed_data.length := by
  refine ⟨?_, fetch_iterate f c n st, rfl⟩
  simpa [initLoader] using parse_iterate doc n initLoader

end RssLoader

namespace WordFreq

theorem map_id_of_mem {α : Type} (f : α → α) :
    ∀ l : List α, (∀ c ∈ l, f c = c) → l.map f = l
  | [], _ => rfl
  | c :: l, h => by
      rw [List.map_cons, h c (List.mem_cons_self c l),
        map_id_of_mem f l (fun x hx => h x (List.mem_cons_of_mem c hx))]

theorem toLower_fixed (c : Char) (h : asciiLower c = true) : c.toLower = c := by
  simp only [asciiLower, Bool.and_eq_true, decide_eq_true_eq] at h
  simp only [Char.toLower]
  rw [if_neg]
  omega

theorem asciiLower_not_ws (c : Char) (h : asciiLower c = true) :
    c.isWhitespace = false := by
  cases hw : c.isWhitespace
  · rfl
  · exfalso
    simp only [Char.isWhitespace, Bool.or_eq_true, decide_eq_true_eq] at hw
    rcases hw with ((rfl | rfl) | rfl) | rfl <;> exact absurd h (by decide)

theorem findWordsAux_eq_splitWsAux :
    ∀ (cs acc : List Char),
      (∀ c ∈ cs, asciiLower c = true ∨ c = ' ') →
      findWordsAux cs true acc = splitWsAux cs acc
  | [], acc, _ => by
      cases hacc : acc.isEmpty <;> simp [findWordsAux, splitWsAux, hacc]
  | c :: cs, acc, h => by
      have hcs : ∀ x ∈ cs, asciiLower x = true ∨ x = ' ' :=
        fun x hx => h x (List.mem_cons_of_mem c hx)
      have ih := findWordsAux_eq_splitWsAux cs [] hcs
      rcases h c (List.mem_cons_self c cs) with hl | rfl
      · rw [show findWordsAux (c :: cs) true acc
              = findWordsAux cs true (c :: acc) from by simp [findWordsAux, hl],
          show splitWsAux (c :: cs) acc = splitWsAux cs (c :: acc) from by
            simp [splitWsAux, asciiLower_not_ws c hl]]
        exact findWordsAux_eq_splitWsAux cs (c :: acc) hcs
      · have hlow : asciiLower ' ' = false := by decide
        have hwc : wordChar ' ' = false := by decide
        have hws : (' ' : Char).isWhitespace = true := by decide
        cases hacc : acc.isEmpty <;>
          simp [findWordsAux, splitWsAux, hlow, hwc, hws, hacc, ih]

theorem splitWsAux_map_toLower :
    ∀ (cs acc : List Char),
      (∀ c ∈ cs, c.toLower = c) → (∀ c ∈ acc, c.toLower = c) →
      (splitWsAux cs acc).map (fun t => t.map Char.toLower) = splitWsAux cs acc
  | [], acc, _, hacc => by
      cases hacc2 : acc.isEmpty
      · simp only [splitWsAux, hacc2, Bool.false_eq_true, if_false, List.map_cons,
          List.map_nil]
        rw [map_id_of_mem _ acc.reverse
          (fun c hc => hacc c (List.mem_reverse.mp hc))]
      · simp [splitWsAux, hacc2]
  | c :: cs, acc, h, hacc => by
      have hcs : ∀ x ∈ cs, x.toLower = x :=
        fun x hx => h x (List.mem_cons_of_mem c hx)
      have hc := h c (List.mem_cons_self c cs)
      cases hw : c.isWhitespace
      · rw [show splitWsAux (c :: cs) acc = splitWsAux cs (c :: acc) from by
            simp [splitWsAux, hw]]
        refine splitWsAux_map_toLower cs (c :: acc) hcs ?_
        intro x hx
        rcases List.mem_cons.mp hx with rfl | hx2
        · exact hc
        · exact hacc x hx2
      · have hnil : ∀ x ∈ ([] : List Char), x.toLower = x :=
          fun x hx => absurd hx (List.not_mem_nil x)
        cases hacc2 : acc.isEmpty
        · rw [show splitWsAux (c :: cs) acc = acc.reverse :: splitWsAux cs [] from by
              simp [splitWsAux, hw, hacc2]]
          rw [List.map_cons,
            map_id_of_mem _ acc.reverse
              (fun x hx => hacc x (List.mem_reverse.mp hx)),
            splitWsAux_map_toLower cs [] hcs hnil]
        · rw [show splitWsAux (c :: cs) acc = splitWsAux cs [] from by
              simp [splitWsAux, hw, hacc2]]
          exact splitWsAux_map_toLower cs [] hcs hnil

/-- C9, counterexample: on the text `"Hello, world"` the two counters
disagree — `word_frequency` splits on whitespace and keeps punctuation,
counting the token `"hello,"` once, while `analyze_word_frequency` strips
punctuation and never produces that token.  The claimed equivalence of the
two counters is therefore false. -/
theorem word_freq_divergence :
    word_frequency ("Hello, world".data) ("hello,".data) = 1
      ∧ analyze_word_frequency ("Hello, world".data) ("hello,".data) = 0
      ∧ word_frequency ("Hello, world".data) ("hello,".data)
          ≠ analyze_word_frequency ("Hello, world".data) ("hello,".data) := by
  refine ⟨?_, ?_, ?_⟩ <;> decide

/-- C9 (amended): the two counters compute the same mapping on every text
whose characters are lowercase ASCII letters and spaces (word tokens free
of punctuation, digits, underscores and uppercase); in general they
differ, as punctuation-adjacent tokens are counted differently. -/
theorem word_freq_agree_on_plain_text (text : List Char)
    (h : text.all (fun c => asciiLower c || c == ' ') = true) (w : List Char) :
    word_frequency text w = analyze_word_frequency text w := by
  have h2 : ∀ c ∈ text, asciiLower c = true ∨ c = ' ' := by
    intro c hc
    have := List.all_eq_true.mp h c hc
    rcases Bool.or_eq_true_iff.mp this with h3 | h3
    · exact Or.inl h3
    · exact Or.inr (by simpa using h3)
  have hfix : ∀ c ∈ text, c.toLower = c := by
    intro c hc
    rcases h2 c hc with hl | rfl
    · exact toLower_fixed c hl
    · decide
  have htext : text.map Char.toLower = text := map_id_of_mem _ text hfix
  have hnil : ∀ x ∈ ([] : List Char), x.toLower = x :=
    fun x hx => absurd hx (List.not_mem_nil x)
  unfold word_frequency analyze_word_frequency findWords splitWs
  rw [htext, findWordsAux_eq_splitWsAux text [] h2,
    splitWsAux_map_toLower text [] hfix hnil]

theorem word_freq_agree_witness :
    ("ab ba ab".data.all (fun c => asciiLower c || c == ' ')) = true
      ∧ word_frequency ("ab ba ab".data) ("ab".data)
          = analyze_word_frequency ("ab ba ab".data) ("ab".data) :=
  ⟨by decide, word_freq_agree_on_plain_text ("ab ba ab".data) (by decide)
    ("ab".data)⟩

end WordFreq
